import Mathlib

/-!
Verification development for the gemini-api-service repository.

This file shallowly embeds the pure/decision logic of
`src/services/geminiService.js` and `src/services/emailService.js`
and proves or refutes the frozen specification claims about it.

Modelling conventions:
- JS strings are Lean `String`s; character-level processing (the regex of
  `extractGeminiVerificationCode`, URL parsing in `getLoginTokens`) works on
  `List Char`, matching the UTF-16 code-unit view of the JS source for the
  BMP characters that actually occur.
- JS `undefined`/`null` fields become `Option`; JS falsiness of a string
  (`s || null`) is modelled by mapping the empty string to `none` where the
  source relies on it.
- `async` functions performing HTTP/browser I/O become functions of explicit
  environment oracles (per-call outcomes); thrown JS errors are `Except.error`.
- Effect traces that the claims talk about (driver invocations, pool delete
  calls, pool add calls, retry delays) are returned as explicit lists.
-/

namespace GeminiApiService

/-! ## Verification Code Extractor (geminiService.js lines 330-334)

The effective JS definition is
`text.match(/您的一次性验证码为：\s*\n\s*\n\s*([A-Z0-9]{6})/i)`.
`\s*\n\s*\n\s*` matches exactly the whitespace strings containing at least
two newline characters; since the token class `[A-Z0-9]` (case-insensitive,
hence also `a-z`) is disjoint from whitespace, a backtracking match at a
given start position exists iff the maximal whitespace run following the
marker contains at least two newlines and is followed by six alphanumeric
characters.  The leftmost matching start position wins. -/

/-- The JavaScript regex class `\s`: WhiteSpace (TAB, VT, FF, SP, NBSP,
ZWNBSP and the Unicode Zs category — U+1680, U+2000-U+200A, U+202F, U+205F,
U+3000) plus LineTerminator (LF, CR, LS U+2028, PS U+2029). -/
def isWs (c : Char) : Bool :=
  c.toNat = 32 || c.toNat = 9 || c.toNat = 10 || c.toNat = 13 ||
  c.toNat = 11 || c.toNat = 12 || c.toNat = 0xA0 || c.toNat = 0x1680 ||
  (0x2000 ≤ c.toNat && c.toNat ≤ 0x200A) || c.toNat = 0x2028 ||
  c.toNat = 0x2029 || c.toNat = 0x202F || c.toNat = 0x205F ||
  c.toNat = 0x3000 || c.toNat = 0xFEFF

/-- The character class of the captured token, `[A-Z0-9]` under the `/i` flag. -/
def isAlnum (c : Char) : Bool :=
  (65 ≤ c.toNat && c.toNat ≤ 90) || (97 ≤ c.toNat && c.toNat ≤ 122) ||
  (48 ≤ c.toNat && c.toNat ≤ 57)

/-- The literal marker phrase of the verification-code regex. -/
def geminiCodeMarker : List Char := "您的一次性验证码为：".data

/-- Attempt the `\s*\n\s*\n\s*([A-Z0-9]{6})` tail of the regex at the position
directly following the marker phrase. -/
def matchAfterMarker (s : List Char) : Option (List Char) :=
  if 2 ≤ (s.takeWhile isWs).count '\n' ∧ 6 ≤ (s.dropWhile isWs).length ∧
      ((s.dropWhile isWs).take 6).all isAlnum then
    some ((s.dropWhile isWs).take 6)
  else
    none

/-- Leftmost regex search: try every start position from the left. -/
def markerScan : List Char → Option (List Char)
  | [] => none
  | c :: tl =>
    if geminiCodeMarker.isPrefixOf (c :: tl) then
      match matchAfterMarker ((c :: tl).drop geminiCodeMarker.length) with
      | some code => some code
      | none => markerScan tl
    else markerScan tl

/-- `extractGeminiVerificationCode` (geminiService.js 330-334): returns the
captured 6-character group of the first match, or nothing. -/
def extractGeminiVerificationCode (text : String) : Option String :=
  (markerScan text.data).map (fun l => String.mk l)

/-- The regex match attempted at one fixed start position `i`. -/
def matchAt (l : List Char) (i : Nat) : Option (List Char) :=
  if geminiCodeMarker.isPrefixOf (l.drop i) then
    matchAfterMarker ((l.drop i).drop geminiCodeMarker.length)
  else none

/-! ## Mailbox polling for the verification code

`geminiService.js` contains two top-level declarations of
`waitForGeminiVerificationCode` (lines 118-204 and lines 360-388) and two of
`findGeminiVerificationCode`; under JS declaration semantics the later
definitions shadow the earlier ones, so the definitions at lines 339-355 and
360-388 are the effective ones.  Both are embedded here: the effective pair
under the source names, the shadowed first definition with a `First` suffix.

An attempt's `getEmailList` call is an oracle `Nat → Except Unit EmailData`
(`Except.error` = the call threw, caught by the loop's `try`/`catch`).
The email-detail endpoint of the first definition is an oracle
`Nat → Option String` from email id to the resolved body text (`none` = the
detail fetch failed or returned a non-200 envelope, leaving the text as-is). -/

/-- An entry of the mail provider's email-list response, with the fields the
code reads.  `text = none` models an entry whose full text was not included
in the list response (JS `undefined`). -/
structure Email where
  subject : String
  text : Option String
  id : Option Nat
deriving Repr, DecidableEq

/-- The `data` payload of the email-list response. -/
structure EmailData where
  list : List Email
deriving Repr, DecidableEq

/-- The exact subject the poller accepts (geminiService.js line 346). -/
def geminiSubject : String := "Gemini Business 验证码"

/-- Error thrown after exhausting all retries (line 387). -/
def timeoutMsg : String := "未能在规定时间内获取到验证码"

/-- `findGeminiVerificationCode`, effective definition (lines 339-355).
For a subject-matching email with absent text, `extractGeminiVerificationCode`
is called on `undefined` and `text.match` throws a TypeError, modelled as
`Except.error ()`. -/
def findGeminiVerificationCode : List Email → Except Unit (Option String)
  | [] => .ok none
  | e :: rest =>
    if e.subject = geminiSubject then
      match e.text with
      | none => .error ()
      | some t =>
        match extractGeminiVerificationCode t with
        | some c => .ok (some c)
        | none => findGeminiVerificationCode rest
    else findGeminiVerificationCode rest

/-- One loop iteration of the effective `waitForGeminiVerificationCode`
(lines 364-379): the whole body sits in a `try`/`catch`, so a thrown list
fetch or extraction TypeError yields no code for the attempt. -/
def attemptStep (d : Except Unit EmailData) : Option String :=
  match d with
  | .error _ => none
  | .ok data =>
    if data.list = [] then none
    else
      match findGeminiVerificationCode data.list with
      | .error _ => none
      | .ok r => r

instance {ε α : Type} [DecidableEq ε] [DecidableEq α] :
    DecidableEq (Except ε α)
  | .ok x, .ok y => decidable_of_iff (x = y) (by simp)
  | .ok _, .error _ => isFalse (by simp)
  | .error _, .ok _ => isFalse (by simp)
  | .error e, .error f => decidable_of_iff (e = f) (by simp)

/-- Result of a polling run: the outcome, the number of attempts consumed,
and the list of inter-attempt delays (milliseconds) that were slept. -/
structure PollResult where
  outcome : Except String String
  used : Nat
  delays : List Nat
deriving Repr, DecidableEq

/-- The retry loop shared by both definitions: `remaining` is the fuel
(initially `maxRetries = 5`), `i` the 0-based attempt index.  A delay of
`retryDelay = 5000` ms is slept after every failed attempt except the last
(line 381: `if (i < maxRetries - 1)`). -/
def waitLoopWith (step : Nat → Option String) : Nat → Nat → PollResult
  | 0, _ => ⟨.error timeoutMsg, 0, []⟩
  | remaining + 1, i =>
    match step i with
    | some c => ⟨.ok c, 1, []⟩
    | none =>
      if remaining = 0 then ⟨.error timeoutMsg, 1, []⟩
      else
        let rest := waitLoopWith step remaining (i + 1)
        ⟨rest.outcome, rest.used + 1, 5000 :: rest.delays⟩

/-- `waitForGeminiVerificationCode`, effective definition (lines 360-388):
up to 5 attempts against the email-list oracle. -/
def waitForGeminiVerificationCode (attempts : Nat → Except Unit EmailData) :
    PollResult :=
  waitLoopWith (fun i => attemptStep (attempts i)) 5 0

/-- Truthiness of a JS numeric id (`verificationEmail.id`). -/
def idTruthy : Option Nat → Bool
  | none => false
  | some n => n ≠ 0

/-- One loop iteration of the shadowed first `waitForGeminiVerificationCode`
(lines 125-194): it takes only the first subject-matching email, fetches the
single-email detail endpoint when the text is falsy and the id truthy
(line 151), then extracts from `text || ''`. -/
def firstDefStep (detail : Nat → Option String) (d : Except Unit EmailData) :
    Option String :=
  match d with
  | .error _ => none
  | .ok data =>
    if data.list = [] then none
    else
      match data.list.find? (fun e => e.subject = geminiSubject) with
      | none => none
      | some e =>
        let t0 := e.text.getD ""
        let t1 :=
          if t0 = "" ∧ idTruthy e.id then
            match e.id with
            | some id =>
              match detail id with
              | some s => s
              | none => t0
            | none => t0
          else t0
        extractGeminiVerificationCode t1

/-- `waitForGeminiVerificationCode`, shadowed first definition
(lines 118-204), including its detail-endpoint fallback. -/
def waitForGeminiVerificationCodeFirst (attempts : Nat → Except Unit EmailData)
    (detail : Nat → Option String) : PollResult :=
  waitLoopWith (fun i => firstDefStep detail (attempts i)) 5 0

/-! ## Session token extraction (`getLoginTokens`, geminiService.js 824-868)

The Puppeteer page is embedded as its observable state: the cookie jar (a
list of name/value pairs as returned by `page.cookies()`) and the current
URL string.  URL query parsing follows `new URL(u).search` /
`URLSearchParams.get` for queries without percent-escapes, and the team id
follows the regex `/\/cid\/([^/?]+)/` (leftmost match, non-empty capture). -/

/-- `cookies.find(c => c.name === name)?.value`. -/
def findCookieValue (cookies : List (String × String)) (name : String) :
    Option String :=
  (cookies.find? (fun c => c.fst = name)).map (fun c => c.snd)

/-- JS `x || null` on an optional string: the empty string is falsy. -/
def jsStringOrNull : Option String → Option String
  | none => none
  | some s => if s = "" then none else some s

/-- Same falsiness coercion on a char-list-valued optional. -/
def jsCharsOrNull : Option (List Char) → Option (List Char)
  | none => none
  | some l => if l = [] then none else some l

/-- The query portion of a URL: after the first `?` that precedes any `#`. -/
def urlSearch (url : List Char) : List Char :=
  match (url.takeWhile (fun c => c ≠ '#')).dropWhile (fun c => c ≠ '?') with
  | [] => []
  | _ :: rest => rest

/-- Split a query string on `&`. -/
def splitAmp (s : List Char) : List (List Char) :=
  let p := s.foldr
    (fun c acc =>
      if c = '&' then (([] : List Char), acc.1 :: acc.2)
      else (c :: acc.1, acc.2))
    (([] : List Char), ([] : List (List Char)))
  p.1 :: p.2

/-- The name part of a `name=value` query pair. -/
def queryPairName (p : List Char) : List Char :=
  p.takeWhile (fun c => c ≠ '=')

/-- The value part of a `name=value` query pair (empty when no `=`). -/
def queryPairValue (p : List Char) : List Char :=
  match p.dropWhile (fun c => c ≠ '=') with
  | [] => []
  | _ :: rest => rest

/-- `new URLSearchParams(search).get(key)` for escape-free queries. -/
def queryParamGet (search : List Char) (key : List Char) :
    Option (List Char) :=
  ((splitAmp search).find? (fun p => queryPairName p = key)).map queryPairValue

/-- The path marker of the team-id regex `/\/cid\/([^/?]+)/`. -/
def cidMarker : List Char := "/cid/".data

/-- Leftmost match of `/\/cid\/([^/?]+)/` over the URL, returning the
(necessarily non-empty) captured group. -/
def cidScan : List Char → Option (List Char)
  | [] => none
  | c :: tl =>
    if cidMarker.isPrefixOf (c :: tl) then
      if ((c :: tl).drop cidMarker.length).takeWhile
          (fun ch => ¬ (ch = '/' ∨ ch = '?')) = [] then
        cidScan tl
      else
        some (((c :: tl).drop cidMarker.length).takeWhile
          (fun ch => ¬ (ch = '/' ∨ ch = '?')))
    else cidScan tl

/-- The four-field token record of a Gemini Business account. -/
structure Tokens where
  csesidx : String
  host_c_oses : String
  secure_c_ses : String
  team_id : String
deriving Repr, DecidableEq

/-- Error thrown by `getLoginTokens` when the completeness check fails
(line 851). -/
def incompleteTokenMsg : String := "Token 获取不完整，请检查登录流程"

/-- `getLoginTokens` (geminiService.js 824-868).  Note the source's
completeness check (line 844) is `!secure_c_ses || !csesidx || !team_id`:
`host_c_oses` is defaulted to `''` (line 832) and never validated. -/
def getLoginTokens (cookies : List (String × String)) (url : String) :
    Except String Tokens :=
  match jsStringOrNull (findCookieValue cookies "__Secure-C_SES"),
      jsCharsOrNull (queryParamGet (urlSearch url.data) "csesidx".data),
      cidScan url.data with
  | some s, some i, some t =>
    .ok ⟨String.mk i, (findCookieValue cookies "__Host-C_OSES").getD "", s,
      String.mk t⟩
  | _, _, _ => .error incompleteTokenMsg

/-- The tail of `loginGeminiChild` (lines 782-808): the `getLoginTokens` call
sits in a `try`/`catch` whose catch only logs, so on extraction failure the
function falls through and returns `undefined` (modelled `none`) instead of
throwing or returning a token object. -/
def loginGeminiChildTokenPhase (r : Except String Tokens) : Option Tokens :=
  match r with
  | .ok t => some t
  | .error _ => none

/-! ## Token refresh orchestrator (`autoRefreshGeminiTokens`, 873-932)

The browser driver `loginGeminiChild` is an oracle indexed by the child's
position: `Except.error` = the driver threw, `.ok none` = it swallowed a
token-extraction failure and returned `undefined` (in which case the
write-back `tokens.csesidx` throws a TypeError inside the per-child `catch`),
`.ok (some t)` = it returned a token object. -/

/-- A child account record of `gemini-mail.yaml` with the fields the code
touches. -/
structure GAccount where
  email : String
  tokens : Option Tokens
  skipReason : Option String
  skipTime : Option String
  lastUpdated : Option String
deriving Repr, DecidableEq

/-- The configured parent (mother) account. -/
structure ParentAccount where
  email : String
deriving Repr, DecidableEq

/-- The token write-back of lines 904-909: each field is `t.field || ''`,
which is the identity on fields that are present (possibly empty) strings. -/
def storeTokens (t : Tokens) : Tokens :=
  ⟨t.csesidx, t.host_c_oses, t.secure_c_ses, t.team_id⟩

/-- Error of line 880 (empty children list). -/
def noChildrenMsg : String := "gemini-mail.yaml 中没有子账户，请先选择账户"

/-- Error of line 889 (parent mismatch). -/
def mismatchMsg : String := "母号不匹配，请检查配置"

/-- Outcome of the per-child refresh loop (lines 896-921). -/
structure RefreshOut where
  updated : List GAccount
  successCount : Nat
  failureCount : Nat
  driverCalls : List Nat
deriving Repr, DecidableEq

/-- The per-child loop: every iteration invokes the driver; on success the
child's tokens and `lastUpdated` are overwritten, on a thrown error (or the
TypeError caused by an `undefined` driver result) the failure count grows and
the loop continues with the next child. -/
def refreshLoop (driver : Nat → Except String (Option Tokens)) (now : String) :
    List GAccount → Nat → RefreshOut
  | [], _ => ⟨[], 0, 0, []⟩
  | c :: rest, i =>
    let r := refreshLoop driver now rest (i + 1)
    match driver i with
    | .ok (some t) =>
      ⟨{ c with tokens := some (storeTokens t), lastUpdated := some now } ::
          r.updated,
        r.successCount + 1, r.failureCount, i :: r.driverCalls⟩
    | .ok none =>
      ⟨c :: r.updated, r.successCount, r.failureCount + 1, i :: r.driverCalls⟩
    | .error _ =>
      ⟨c :: r.updated, r.successCount, r.failureCount + 1, i :: r.driverCalls⟩

/-- A whole refresh run: the returned `{successCount, failureCount}` (or the
thrown error), the children list persisted at the end, and the positions for
which the browser driver was invoked. -/
structure RefreshRun where
  result : Except String (Nat × Nat)
  saved : List GAccount
  driverCalls : List Nat
deriving Repr, DecidableEq

/-- `autoRefreshGeminiTokens` (geminiService.js 873-932). -/
def autoRefreshGeminiTokens (parent : Option ParentAccount)
    (children : List GAccount) (loginEmail : String)
    (driver : Nat → Except String (Option Tokens)) (now : String) :
    RefreshRun :=
  if children = [] then ⟨.error noChildrenMsg, children, []⟩
  else
    match parent with
    | none => ⟨.error mismatchMsg, children, []⟩
    | some p =>
      if p.email = loginEmail then
        let r := refreshLoop driver now children 0
        ⟨.ok (r.successCount, r.failureCount), r.updated, r.driverCalls⟩
      else ⟨.error mismatchMsg, children, []⟩

/-! ## Account pool synchronizer (geminiService.js 937-1142)

Remote pool accounts are their opaque ids (`Nat`); the outcome of a single
delete/add/test HTTP call is an oracle `Nat → Bool` keyed by pool-account id
(delete/test) or by the child's position (add). -/

/-- Payload of `addAccount` (lines 1043-1049). -/
structure AddData where
  team_id : String
  secure_c_ses : String
  host_c_oses : String
  csesidx : String
  user_agent : String
deriving Repr, DecidableEq

/-- The hard-coded user agent sent with every add (line 1048). -/
def userAgentString : String :=
  "Mozilla/5.0 (Windows NT 10.0; Win64; x64) AppleWebKit/537.36 (KHTML, like Gecko) Chrome/142.0.0.0 Safari/537.36"

/-- The `skipReason` written to token-less children (line 1035). -/
def noTokensMsg : String := "没有tokens信息"

/-- Outcome of the `addAllAccounts` child loop (lines 1026-1064). -/
structure AddOut where
  addedCount : Nat
  skippedCount : Nat
  addCalls : List AddData
  updated : List GAccount
deriving Repr, DecidableEq

/-- The `addAllAccounts` loop: a child is skipped iff
`!child.tokens || child.skipReason` (line 1029) — only the presence of the
tokens object is checked, not its fields; a skipped token-less child without
a reason gets one stamped (lines 1034-1037). -/
def addLoop (addOutcome : Nat → Bool) (now : String) :
    List GAccount → Nat → AddOut
  | [], _ => ⟨0, 0, [], []⟩
  | c :: rest, i =>
    match c.tokens, c.skipReason with
    | some t, none =>
      let d : AddData :=
        ⟨t.team_id, t.secure_c_ses, t.host_c_oses, t.csesidx, userAgentString⟩
      let r := addLoop addOutcome now rest (i + 1)
      ⟨(if addOutcome i then r.addedCount + 1 else r.addedCount),
        r.skippedCount, d :: r.addCalls, c :: r.updated⟩
    | some _, some _ =>
      let r := addLoop addOutcome now rest (i + 1)
      ⟨r.addedCount, r.skippedCount + 1, r.addCalls, c :: r.updated⟩
    | none, sk =>
      let c' :=
        if sk = none then
          { c with skipReason := some noTokensMsg, skipTime := some now }
        else c
      let r := addLoop addOutcome now rest (i + 1)
      ⟨r.addedCount, r.skippedCount + 1, r.addCalls, c' :: r.updated⟩

/-- `addAllAccounts` (lines 1018-1080): the loop plus the
`{addedCount, skippedCount, totalCount}` result object it returns, the
latter modelled as a JS object, i.e. a key/value list. -/
def addAllAccounts (children : List GAccount) (addOutcome : Nat → Bool)
    (finalPool : List Nat) (now : String) : AddOut × List (String × Nat) :=
  let r := addLoop addOutcome now children 0
  (r, [("addedCount", r.addedCount), ("skippedCount", r.skippedCount),
       ("totalCount", finalPool.length)])

/-- The `deleteAllAccounts` loop (lines 988-1002): every pool account gets a
delete call; failures are logged, counted out, and never abort the loop. -/
def deleteLoop (delOutcome : Nat → Bool) : List Nat → Nat × List Nat
  | [] => (0, [])
  | id :: rest =>
    let r := deleteLoop delOutcome rest
    (if delOutcome id then r.1 + 1 else r.1, id :: r.2)

/-- A whole `updateGeminiPool` run: the returned object (`none` models the
bare `return` of line 948, which yields `undefined`), plus the delete and add
calls issued against the pool service. -/
structure UpdateRun where
  result : Except String (Option (List (String × Nat)))
  deleteCalls : List Nat
  addCalls : List AddData
deriving Repr, DecidableEq

/-- `updateGeminiPool` (geminiService.js 937-969).  Note line 964: the
function returns only `{ totalCount: finalAccounts.length }`; the
added/skipped counts computed by `addAllAccounts` are discarded. -/
def updateGeminiPool (children : List GAccount)
    (loginResult : Except String String) (initialPool : List Nat)
    (delOutcome addOutcome : Nat → Bool) (finalPool : List Nat)
    (now : String) : UpdateRun :=
  if children = [] then ⟨.ok none, [], []⟩
  else
    match loginResult with
    | .error e => ⟨.error e, [], []⟩
    | .ok _ =>
      let dels := deleteLoop delOutcome initialPool
      let r := addLoop addOutcome now children 0
      ⟨.ok (some [("totalCount", finalPool.length)]), dels.2, r.addCalls⟩

/-- Error of line 1092 (missing pool admin password). -/
def noPasswordMsg : String := "gemini-mail.yaml 中未配置密码"

/-- The `cleanInvalidAccounts` per-account loop (lines 1112-1134): a passing
health check bumps `validCount`; a failing one issues a delete call, and
`invalidCount` is bumped only when that delete reports success. -/
def cleanLoop (test del : Nat → Bool) : List Nat → Nat × Nat × List Nat
  | [] => (0, 0, [])
  | id :: rest =>
    let r := cleanLoop test del rest
    if test id then (r.1 + 1, r.2.1, r.2.2)
    else (r.1, (if del id then r.2.1 + 1 else r.2.1), id :: r.2.2)

/-- A whole `cleanInvalidAccounts` run: the `{validCount, invalidCount}`
result (or thrown error) and the delete calls issued. -/
structure CleanRun where
  result : Except String (Nat × Nat)
  deleteCalls : List Nat
deriving Repr, DecidableEq

/-- `cleanInvalidAccounts` (geminiService.js 1085-1142). -/
def cleanInvalidAccounts (password : String)
    (loginResult : Except String String) (accounts : List Nat)
    (test del : Nat → Bool) : CleanRun :=
  if password = "" then ⟨.error noPasswordMsg, []⟩
  else
    match loginResult with
    | .error e => ⟨.error e, []⟩
    | .ok _ =>
      if accounts = [] then ⟨.ok (0, 0), []⟩
      else
        let r := cleanLoop test del accounts
        ⟨.ok (r.1, r.2.1), r.2.2⟩

/-! ## Mail account partitioning (`splitAccounts`, emailService.js 240-264) -/

/-- A mail-provider account record with the fields `splitAccounts` and the
synthesized parent use. -/
structure MailAccount where
  email : String
  accountId : Option Nat
  name : String
  status : Option Nat
  latestEmailTime : String
  createTime : String
deriving Repr, DecidableEq

/-- The partition loop (lines 244-250): the first entry whose email equals
the login email becomes the parent; every other entry is pushed to the
children in order. -/
def splitGo (loginEmail : String) :
    List MailAccount → Option MailAccount → Option MailAccount × List MailAccount
  | [], parent => (parent, [])
  | item :: rest, parent =>
    if parent = none ∧ item.email = loginEmail then
      splitGo loginEmail rest (some item)
    else
      let r := splitGo loginEmail rest parent
      (r.1, item :: r.2)

/-- `splitAccounts` (emailService.js 240-264): when no entry matched, a
parent is synthesized with a null accountId (lines 252-261); `now` stands for
`new Date().toISOString()`. -/
def splitAccounts (list : List MailAccount) (loginEmail : String)
    (now : String) : MailAccount × List MailAccount :=
  let r := splitGo loginEmail list none
  match r.1 with
  | some p => (p, r.2)
  | none => (⟨loginEmail, none, "", none, "", now⟩, r.2)

/-! ## Business account selection (`selectBusinessAccounts`, 1147-1192) -/

/-- Error of line 1154 (no children configured). -/
def noChildrenSelMsg : String := "没有找到任何子号，请先在邮箱管理中创建子号"

/-- Error of line 1172 (no id selected a child). -/
def noValidSelMsg : String := "没有选择任何有效的账号"

/-- The selection loop (lines 1163-1169): `index = parseInt(id, 10) - 1`,
kept when `0 <= index < children.length`; i.e. each id is a 1-based position
into the children array. -/
def selectLoop (children : List MailAccount) : List Int → List MailAccount
  | [] => []
  | id :: rest =>
    if id - 1 < 0 then selectLoop children rest
    else
      match children.get? (id - 1).toNat with
      | some c => c :: selectLoop children rest
      | none => selectLoop children rest

/-- `selectBusinessAccounts` (geminiService.js 1147-1192), reduced to its
selection logic over the configured children. -/
def selectBusinessAccounts (children : List MailAccount)
    (accountIds : List Int) : Except String (List MailAccount) :=
  if children = [] then .error noChildrenSelMsg
  else
    let selected := selectLoop children accountIds
    if selected = [] then .error noValidSelMsg
    else .ok selected

/-! ## Browser launch proxy setup (loginGeminiChild, lines 573-650, and
`testProxyConnection`, lines 393-477)

`testProxyConnection` catches every network error internally and returns a
Bool; its single outbound request's outcome is the oracle `NetOutcome`.
In `loginGeminiChild` the flag `proxyValid` is initialized `true` (line 574)
and never reassigned; the probe's return value at line 591 is discarded. -/

/-- Proxy settings as produced by `getProxyConfig` (utils/config.js):
absent credentials are empty strings. -/
structure ProxyConfig where
  enabled : Bool
  ptype : String
  url : String
  port : Nat
  username : String
  password : String
deriving Repr, DecidableEq

/-- Outcome of the probe's single HTTP request through the proxy. -/
inductive NetOutcome where
  | status (code : Nat)
  | netError (msg : String)
deriving Repr, DecidableEq

/-- `testProxyConnection` (lines 393-477): disabled proxy → false; a
2xx/3xx status → true; any other status or a thrown network error → false. -/
def testProxyConnection (cfg : ProxyConfig) (net : NetOutcome) : Bool :=
  if cfg.enabled = false then false
  else
    match net with
    | .status code => if 200 ≤ code ∧ code < 400 then true else false
    | .netError _ => false

/-- The `--proxy-server` value (lines 582-587 / 600-602). -/
def proxyServerArg (cfg : ProxyConfig) : String :=
  if cfg.ptype = "socks5" then
    "socks5://" ++ cfg.url ++ ":" ++ toString cfg.port
  else
    cfg.ptype ++ "://" ++ cfg.url ++ ":" ++ toString cfg.port

/-- The fixed launch flag set of lines 529-571. -/
def baseLaunchArgs (userDataDir : String) (debugPort : Nat) : List String :=
  [ "--user-data-dir=" ++ userDataDir,
    "--no-sandbox",
    "--disable-setuid-sandbox",
    "--disable-infobars",
    "--window-position=0,0",
    "--ignore-certifcate-errors",
    "--ignore-certifcate-errors-spki-list",
    "--disable-blink-features=AutomationControlled",
    "--disable-features=VizDisplayCompositor",
    "--disable-extensions",
    "--disable-plugins",
    "--disable-images",
    "--disable-default-apps",
    "--disable-background-timer-throttling",
    "--disable-backgrounding-occluded-windows",
    "--disable-renderer-backgrounding",
    "--disable-background-networking",
    "--disable-sync",
    "--metrics-recording-only",
    "--no-default-browser-check",
    "--no-first-run",
    "--disable-component-extensions-with-background-pages",
    "--single-process",
    "--disable-gpu",
    "--disable-dev-shm-usage",
    "--disable-software-rasterizer",
    "--disable-web-security",
    "--disable-features=TranslateUI",
    "--disable-ipc-flooding-protection",
    "--disable-logging",
    "--disable-notifications",
    "--disable-permissions-api",
    "--disable-web-resources",
    "--disable-features=AudioServiceOutOfProcess",
    "--password-store=basic",
    "--use-mock-keychain",
    "--lang=zh-CN,zh;q=0.9,en;q=0.8",
    "--window-size=1920,1080",
    "--remote-debugging-port=" ++ toString debugPort ]

/-- The launch-argument assembly of `loginGeminiChild` (lines 529-616):
`proxyValid` stays `true`, the probe result is discarded, so an enabled
proxy always contributes its flags. -/
def loginGeminiChildLaunchArgs (cfg : ProxyConfig) (net : NetOutcome)
    (userDataDir : String) (debugPort : Nat) : List String :=
  let args := baseLaunchArgs userDataDir debugPort
  let proxyValid := true
  if cfg.enabled then
    let _probe := testProxyConnection cfg net
    if proxyValid then
      args ++ [ "--proxy-server=" ++ proxyServerArg cfg,
                "--proxy-bypass-list=<-loopback>",
                "--ignore-certificate-errors" ]
    else args
  else args

/-- The `page.authenticate` guard of line 639: enabled, non-socks5, both
credentials non-empty, and the (always-true) `proxyValid` flag. -/
def loginGeminiChildProxyAuthApplied (cfg : ProxyConfig) (net : NetOutcome) :
    Bool :=
  let proxyValid := true
  let _probe := testProxyConnection cfg net
  cfg.enabled && !(cfg.ptype == "socks5") && !(cfg.username == "") &&
    !(cfg.password == "") && proxyValid

/-! ## Lemmas about the verification-code extractor -/

lemma marker_not_prefix_nil :
    geminiCodeMarker.isPrefixOf ([] : List Char) = false := by decide

lemma matchAt_nil (i : Nat) : matchAt [] i = none := by
  simp [matchAt, marker_not_prefix_nil]

lemma matchAt_cons_succ (c : Char) (tl : List Char) (i : Nat) :
    matchAt (c :: tl) (i + 1) = matchAt tl i := by
  simp [matchAt, List.drop_succ_cons]

lemma markerScan_cons (c : Char) (tl : List Char) :
    markerScan (c :: tl) =
      match matchAt (c :: tl) 0 with
      | some code => some code
      | none => markerScan tl := by
  conv_lhs => unfold markerScan
  unfold matchAt
  simp only [List.drop_zero]
  by_cases hp : geminiCodeMarker.isPrefixOf (c :: tl) = true
  · rw [if_pos hp, if_pos hp]
  · rw [if_neg hp, if_neg hp]

lemma markerScan_some_of (l : List Char) (i : Nat) (code : List Char)
    (hb : ∀ j, j < i → matchAt l j = none) (hi : matchAt l i = some code) :
    markerScan l = some code := by
  induction l generalizing i with
  | nil => rw [matchAt_nil] at hi; cases hi
  | cons c tl ih =>
    rw [markerScan_cons]
    cases i with
    | zero => rw [hi]
    | succ n =>
      have h0 : matchAt (c :: tl) 0 = none := hb 0 (Nat.succ_pos n)
      rw [h0]
      exact ih n
        (fun j hj => by
          have hb' := hb (j + 1) (Nat.succ_lt_succ hj)
          rwa [matchAt_cons_succ] at hb')
        (by rwa [matchAt_cons_succ] at hi)

lemma markerScan_none (l : List Char) (h : ∀ j, matchAt l j = none) :
    markerScan l = none := by
  induction l with
  | nil => rfl
  | cons c tl ih =>
    rw [markerScan_cons, h 0]
    exact ih (fun j => by have h' := h (j + 1); rwa [matchAt_cons_succ] at h')

lemma not_isWs_of_isAlnum (c : Char) (h : isAlnum c = true) :
    isWs c = false := by
  cases hws : isWs c with
  | false => rfl
  | true =>
    exfalso
    simp only [isAlnum, Bool.or_eq_true, Bool.and_eq_true,
      decide_eq_true_eq] at h
    simp only [isWs, Bool.or_eq_true, Bool.and_eq_true,
      decide_eq_true_eq] at hws
    omega

lemma takeWhile_append_cons (p : Char → Bool) (l₁ : List Char) (x : Char)
    (xs : List Char) (h₁ : ∀ a ∈ l₁, p a = true) (hx : p x = false) :
    (l₁ ++ x :: xs).takeWhile p = l₁ ∧ (l₁ ++ x :: xs).dropWhile p = x :: xs := by
  induction l₁ with
  | nil => simp [List.takeWhile_cons, List.dropWhile_cons, hx]
  | cons a as ih =>
    have ha : p a = true := h₁ a (List.mem_cons_self a as)
    have hrest := ih (fun b hb => h₁ b (List.mem_cons_of_mem a hb))
    simp [List.takeWhile_cons, List.dropWhile_cons, ha, hrest.1, hrest.2]

lemma isPrefixOf_append_self (l r : List Char) :
    l.isPrefixOf (l ++ r) = true := by
  rw [List.isPrefixOf_iff_prefix]
  exact List.prefix_append l r

lemma matchAfterMarker_eq (gap code post : List Char)
    (hgap : ∀ a ∈ gap, isWs a = true) (hn : 2 ≤ gap.count '\n')
    (hlen : 6 ≤ code.length) (hal : ∀ a ∈ code, isAlnum a = true) :
    matchAfterMarker (gap ++ (code ++ post)) = some (code.take 6) := by
  cases code with
  | nil => simp at hlen
  | cons c0 cs =>
    have hws0 : isWs c0 = false :=
      not_isWs_of_isAlnum c0 (hal c0 (List.mem_cons_self c0 cs))
    have htd := takeWhile_append_cons isWs gap c0 (cs ++ post) hgap hws0
    have hassoc : gap ++ ((c0 :: cs) ++ post) = gap ++ (c0 :: (cs ++ post)) :=
      rfl
    unfold matchAfterMarker
    rw [hassoc, htd.1, htd.2]
    have hlen2 : 6 ≤ (c0 :: (cs ++ post)).length := by
      simp only [List.length_cons, List.length_append] at hlen ⊢
      omega
    have htake : (c0 :: (cs ++ post)).take 6 = (c0 :: cs).take 6 := by
      rw [show (c0 :: (cs ++ post)) = (c0 :: cs) ++ post from rfl]
      exact List.take_append_of_le_length hlen
    have hall : ((c0 :: (cs ++ post)).take 6).all isAlnum = true := by
      rw [htake, List.all_eq_true]
      intro a ha
      exact hal a (List.take_subset 6 (c0 :: cs) ha)
    rw [if_pos ⟨hn, hlen2, hall⟩, htake]

lemma matchAt_occurrence (pre gap code post : List Char)
    (hgap : ∀ a ∈ gap, isWs a = true) (hn : 2 ≤ gap.count '\n')
    (hlen : 6 ≤ code.length) (hal : ∀ a ∈ code, isAlnum a = true) :
    matchAt (pre ++ (geminiCodeMarker ++ (gap ++ (code ++ post)))) pre.length
      = some (code.take 6) := by
  unfold matchAt
  rw [List.drop_left]
  rw [if_pos (isPrefixOf_append_self geminiCodeMarker (gap ++ (code ++ post)))]
  rw [List.drop_left]
  exact matchAfterMarker_eq gap code post hgap hn hlen hal

/-- Claim C3, counterexample.  The claim states that an input whose candidate
token after the marker has more than 6 characters yields nothing; but on
"您的一次性验证码为：\n\nABC1234" — whose candidate token `ABC1234` is a run
of 7 alphanumeric characters — `extractGeminiVerificationCode` returns the
first 6 characters `ABC123` (the regex `[A-Z0-9]{6}` has no right
delimiter). -/
theorem claim_C3_counterexample :
    extractGeminiVerificationCode "您的一次性验证码为：\n\nABC1234" = some "ABC123"
    ∧ "ABC1234".data.all isAlnum = true ∧ "ABC1234".length = 7 := by decide

/-- Claim C3, amended: for every input text that is a marker occurrence
followed by a whitespace gap containing at least two newlines and then at
least 6 alphanumeric characters — provided no earlier start position also
matches — the extractor returns exactly the FIRST 6 characters of the
alphanumeric run (so a 6-character token is returned in full, while a longer
run is truncated rather than rejected); and every input with no matching
position at all yields nothing. -/
theorem claim_C3 :
    (∀ pre gap code post : List Char,
      (∀ j, j < pre.length →
        matchAt (pre ++ (geminiCodeMarker ++ (gap ++ (code ++ post)))) j = none) →
      (∀ a ∈ gap, isWs a = true) → 2 ≤ gap.count '\n' →
      6 ≤ code.length → (∀ a ∈ code, isAlnum a = true) →
      extractGeminiVerificationCode
          (String.mk (pre ++ (geminiCodeMarker ++ (gap ++ (code ++ post)))))
        = some (String.mk (code.take 6)))
    ∧ (∀ l : List Char, (∀ j, matchAt l j = none) →
      extractGeminiVerificationCode (String.mk l) = none) := by
  constructor
  · intro pre gap code post hpre hgap hn hlen hal
    have hscan :
        markerScan (pre ++ (geminiCodeMarker ++ (gap ++ (code ++ post))))
          = some (code.take 6) :=
      markerScan_some_of _ pre.length _ hpre
        (matchAt_occurrence pre gap code post hgap hn hlen hal)
    unfold extractGeminiVerificationCode
    rw [show (String.mk (pre ++ (geminiCodeMarker ++ (gap ++ (code ++ post))))).data
          = pre ++ (geminiCodeMarker ++ (gap ++ (code ++ post))) from rfl]
    rw [hscan]
    rfl
  · intro l hl
    unfold extractGeminiVerificationCode
    rw [show (String.mk l).data = l from rfl]
    rw [markerScan_none l hl]
    rfl

/-- Witness for claim C3's amended theorem at concrete inputs: a marker text
whose gap mixes the two newlines with an ideographic space (U+3000, matched
by the source regex's `\s`), and the empty text. -/
theorem claim_C3_witness :
    extractGeminiVerificationCode
        (String.mk ([] ++ (geminiCodeMarker ++
          (['\n', '\n', '　'] ++ ("ABC123".data ++ [])))))
      = some (String.mk ("ABC123".data.take 6))
    ∧ extractGeminiVerificationCode (String.mk []) = none :=
  ⟨claim_C3.1 [] ['\n', '\n', '　'] "ABC123".data []
      (fun j hj => absurd hj (Nat.not_lt_zero j))
      (by decide) (by decide) (by decide) (by decide),
    claim_C3.2 [] (fun j => matchAt_nil j)⟩

/-! ## Lemmas about the verification-code polling loop -/

lemma findGeminiVerificationCode_ok_some (list : List Email) (c : String)
    (h : findGeminiVerificationCode list = .ok (some c)) :
    ∃ e ∈ list, e.subject = geminiSubject ∧
      ∃ t, e.text = some t ∧ extractGeminiVerificationCode t = some c := by
  induction list with
  | nil => simp [findGeminiVerificationCode] at h
  | cons e rest ih =>
    by_cases hs : e.subject = geminiSubject
    · cases ht : e.text with
      | none =>
        simp [findGeminiVerificationCode, hs, ht] at h
      | some t =>
        cases hx : extractGeminiVerificationCode t with
        | some c' =>
          simp [findGeminiVerificationCode, hs, ht, hx] at h
          exact ⟨e, List.mem_cons_self e rest, hs, t, ht, by rw [hx, h]⟩
        | none =>
          simp [findGeminiVerificationCode, hs, ht, hx] at h
          obtain ⟨e', he', rest'⟩ := ih h
          exact ⟨e', List.mem_cons_of_mem e he', rest'⟩
    · simp [findGeminiVerificationCode, hs] at h
      obtain ⟨e', he', rest'⟩ := ih h
      exact ⟨e', List.mem_cons_of_mem e he', rest'⟩

lemma attemptStep_some (d : Except Unit EmailData) (c : String)
    (h : attemptStep d = some c) :
    ∃ data, d = .ok data ∧ findGeminiVerificationCode data.list = .ok (some c) := by
  cases d with
  | error u => simp [attemptStep] at h
  | ok data =>
    refine ⟨data, rfl, ?_⟩
    by_cases hl : data.list = []
    · simp [attemptStep, hl] at h
    · cases hf : findGeminiVerificationCode data.list with
      | error u => simp [attemptStep, hl, hf] at h
      | ok r =>
        simp [attemptStep, hl, hf] at h
        rw [h]

lemma waitLoopWith_ok (step : Nat → Option String) (r i : Nat) (c : String)
    (h : (waitLoopWith step r i).outcome = .ok c) :
    ∃ j, i ≤ j ∧ j < i + r ∧ step j = some c := by
  induction r generalizing i with
  | zero => simp [waitLoopWith] at h
  | succ n ih =>
    unfold waitLoopWith at h
    cases hs : step i with
    | some c' =>
      rw [hs] at h
      have h2 : Except.ok (ε := String) c' = .ok c := h
      have hc : c' = c := by injection h2
      exact ⟨i, Nat.le_refl i, by omega, hs.trans (congrArg some hc)⟩
    | none =>
      rw [hs] at h
      by_cases hn : n = 0
      · rw [if_pos hn] at h; simp at h
      · rw [if_neg hn] at h
        obtain ⟨j, hj1, hj2, hj3⟩ := ih (i + 1) h
        exact ⟨j, by omega, by omega, hj3⟩

lemma waitLoopWith_used_le (step : Nat → Option String) (r i : Nat) :
    (waitLoopWith step r i).used ≤ r := by
  induction r generalizing i with
  | zero => simp [waitLoopWith]
  | succ n ih =>
    unfold waitLoopWith
    cases hs : step i with
    | some c => simp
    | none =>
      by_cases hn : n = 0
      · rw [if_pos hn]; simp
      · rw [if_neg hn]
        exact Nat.succ_le_succ (ih (i + 1))

lemma waitLoopWith_delays (step : Nat → Option String) (r i : Nat) :
    ∀ x ∈ (waitLoopWith step r i).delays, x = 5000 := by
  induction r generalizing i with
  | zero => simp [waitLoopWith]
  | succ n ih =>
    unfold waitLoopWith
    cases hs : step i with
    | some c => simp
    | none =>
      by_cases hn : n = 0
      · rw [if_pos hn]; simp
      · rw [if_neg hn]
        intro x hx
        rcases List.mem_cons.mp hx with h5 | hrest
        · exact h5
        · exact ih (i + 1) x hrest

lemma waitLoopWith_error_msg (step : Nat → Option String) (r i : Nat)
    (e : String) (h : (waitLoopWith step r i).outcome = .error e) :
    e = timeoutMsg := by
  induction r generalizing i with
  | zero =>
    have h2 : Except.error (α := String) timeoutMsg = .error e := h
    have := by injection h2
    exact this.symm
  | succ n ih =>
    unfold waitLoopWith at h
    cases hs : step i with
    | some c => rw [hs] at h; simp at h
    | none =>
      rw [hs] at h
      by_cases hn : n = 0
      · rw [if_pos hn] at h
        have h2 : Except.error (α := String) timeoutMsg = .error e := h
        have := by injection h2
        exact this.symm
      · rw [if_neg hn] at h
        exact ih (i + 1) h

/-- Claim C2, counterexample.  An attempt stream in which every poll returns
a single email with the exact verification subject but with its full text
absent from the list response, and a detail endpoint that would return a
valid body: the claim demands the detail endpoint be fetched and the code
extracted, but the effective `waitForGeminiVerificationCode` (lines 360-388)
exhausts all 5 attempts and throws the timeout error — only the shadowed
first definition (lines 118-204) performs the detail fetch and succeeds. -/
theorem claim_C2_counterexample :
    waitForGeminiVerificationCode
        (fun _ => .ok ⟨[⟨geminiSubject, none, some 1⟩]⟩)
      = ⟨.error timeoutMsg, 5, [5000, 5000, 5000, 5000]⟩
    ∧ waitForGeminiVerificationCodeFirst
        (fun _ => .ok ⟨[⟨geminiSubject, none, some 1⟩]⟩)
        (fun _ => some "您的一次性验证码为：\n\nAB12CD")
      = ⟨.ok "AB12CD", 1, []⟩ := by decide

/-- Claim C2, amended.  The effective code-retrieval step polls the mailbox
with at most 5 attempts spaced 5000 ms apart and succeeds only through an
email whose subject equals the fixed verification-code subject and whose
full text is PRESENT in the list response and contains the code; the
single-email detail endpoint is never consulted (that fallback exists only
in the shadowed first definition), and exhausting the attempts throws the
timeout error. -/
theorem claim_C2 (attempts : Nat → Except Unit EmailData) (c : String)
    (h : (waitForGeminiVerificationCode attempts).outcome = .ok c) :
    (∃ j, j < 5 ∧ ∃ data, attempts j = .ok data ∧
        ∃ e ∈ data.list, e.subject = geminiSubject ∧
          ∃ t, e.text = some t ∧ extractGeminiVerificationCode t = some c)
    ∧ (waitForGeminiVerificationCode attempts).used ≤ 5
    ∧ (∀ x ∈ (waitForGeminiVerificationCode attempts).delays, x = 5000)
    ∧ (∀ e, (waitForGeminiVerificationCode attempts).outcome = .error e →
        e = timeoutMsg) := by
  refine ⟨?_, waitLoopWith_used_le _ 5 0, waitLoopWith_delays _ 5 0,
    fun e he => waitLoopWith_error_msg _ 5 0 e he⟩
  obtain ⟨j, hj0, hj5, hstep⟩ := waitLoopWith_ok _ 5 0 c h
  obtain ⟨data, hd, hfind⟩ := attemptStep_some (attempts j) c hstep
  obtain ⟨e, he, hs, t, ht, hx⟩ :=
    findGeminiVerificationCode_ok_some data.list c hfind
  exact ⟨j, by omega, data, hd, e, he, hs, t, ht, hx⟩

/-- Attempt stream used by claim C2's witness: every poll returns one
subject-matching email whose text is present and well-formed. -/
def c2WitnessAttempts : Nat → Except Unit EmailData :=
  fun _ => .ok ⟨[⟨geminiSubject, some "您的一次性验证码为：\n\nAB12CD", some 1⟩]⟩

/-- Witness for claim C2's amended theorem at a concrete attempt stream. -/
theorem claim_C2_witness :
    (∃ j, j < 5 ∧ ∃ data, c2WitnessAttempts j = .ok data ∧
        ∃ e ∈ data.list, e.subject = geminiSubject ∧
          ∃ t, e.text = some t ∧ extractGeminiVerificationCode t = some "AB12CD")
    ∧ (waitForGeminiVerificationCode c2WitnessAttempts).used ≤ 5
    ∧ (∀ x ∈ (waitForGeminiVerificationCode c2WitnessAttempts).delays, x = 5000)
    ∧ (∀ e, (waitForGeminiVerificationCode c2WitnessAttempts).outcome = .error e →
        e = timeoutMsg) :=
  claim_C2 c2WitnessAttempts "AB12CD" (by decide)

/-! ## Lemmas about token extraction -/

lemma jsStringOrNull_ne_empty (o : Option String) (s : String)
    (h : jsStringOrNull o = some s) : s ≠ "" := by
  cases o with
  | none => simp [jsStringOrNull] at h
  | some v =>
    by_cases hv : v = ""
    · simp [jsStringOrNull, hv] at h
    · simp [jsStringOrNull, hv] at h
      exact h ▸ hv

lemma jsCharsOrNull_ne_nil (o : Option (List Char)) (l : List Char)
    (h : jsCharsOrNull o = some l) : l ≠ [] := by
  cases o with
  | none => simp [jsCharsOrNull] at h
  | some v =>
    by_cases hv : v = []
    · simp [jsCharsOrNull, hv] at h
    · simp [jsCharsOrNull, hv] at h
      exact h ▸ hv

lemma cidScan_ne_nil (u : List Char) (r : List Char)
    (h : cidScan u = some r) : r ≠ [] := by
  induction u with
  | nil => simp [cidScan] at h
  | cons c tl ih =>
    unfold cidScan at h
    by_cases hp : cidMarker.isPrefixOf (c :: tl) = true
    · rw [if_pos hp] at h
      by_cases hc : ((c :: tl).drop cidMarker.length).takeWhile
          (fun ch => ¬ (ch = '/' ∨ ch = '?')) = []
      · rw [if_pos hc] at h; exact ih h
      · rw [if_neg hc] at h
        injection h with h2
        exact h2 ▸ hc
    · rw [if_neg hp] at h; exact ih h

lemma stringMk_ne_empty (l : List Char) (h : l ≠ []) : String.mk l ≠ "" := by
  intro he
  apply h
  exact congrArg String.data he

/-- Claim C1, counterexample.  A page whose cookie jar lacks the
`__Host-C_OSES` cookie but carries the other three fields: the claim demands
that `getLoginTokens` fail, yet the code returns a token object whose
`host_c_oses` field is the empty string (it is defaulted at line 832 and
excluded from the completeness check at line 844) — a partial-token result
reaching the caller. -/
theorem claim_C1_counterexample :
    getLoginTokens [("__Secure-C_SES", "sesval")]
        "https://business.gemini.google/cid/team1?csesidx=idx9"
      = .ok ⟨"idx9", "", "sesval", "team1"⟩
    ∧ loginGeminiChildTokenPhase
        (getLoginTokens [("__Secure-C_SES", "sesval")]
          "https://business.gemini.google/cid/team1?csesidx=idx9")
      = some ⟨"idx9", "", "sesval", "team1"⟩ := by decide

/-- Claim C1, amended.  Every token object returned by `getLoginTokens` has
non-empty `csesidx`, `secure_c_ses` and `team_id` — extraction fails when any
of those three cannot be located — but `host_c_oses` is not validated and may
be empty; additionally, on extraction failure `loginGeminiChild` swallows the
error and yields `undefined` rather than the named error. -/
theorem claim_C1 (cookies : List (String × String)) (url : String)
    (t : Tokens) (h : getLoginTokens cookies url = .ok t) :
    t.csesidx ≠ "" ∧ t.secure_c_ses ≠ "" ∧ t.team_id ≠ "" := by
  unfold getLoginTokens at h
  cases hsec : jsStringOrNull (findCookieValue cookies "__Secure-C_SES") with
  | none => rw [hsec] at h; simp at h
  | some s =>
    rw [hsec] at h
    cases hcs : jsCharsOrNull (queryParamGet (urlSearch url.data) "csesidx".data) with
    | none => rw [hcs] at h; simp at h
    | some i =>
      rw [hcs] at h
      cases htm : cidScan url.data with
      | none => rw [htm] at h; simp at h
      | some tm =>
        rw [htm] at h
        have h2 : Except.ok (ε := String)
            (⟨String.mk i, (findCookieValue cookies "__Host-C_OSES").getD "",
              s, String.mk tm⟩ : Tokens) = .ok t := h
        have ht : (⟨String.mk i,
            (findCookieValue cookies "__Host-C_OSES").getD "",
            s, String.mk tm⟩ : Tokens) = t := by injection h2
        rw [← ht]
        exact ⟨stringMk_ne_empty i (jsCharsOrNull_ne_nil _ i hcs),
          jsStringOrNull_ne_empty _ s hsec,
          stringMk_ne_empty tm (cidScan_ne_nil _ tm htm)⟩

/-- Witness for claim C1's amended theorem at a concrete page with all four
fields present. -/
theorem claim_C1_witness :
    (Tokens.mk "I7" "hv" "sv" "T7").csesidx ≠ ""
    ∧ (Tokens.mk "I7" "hv" "sv" "T7").secure_c_ses ≠ ""
    ∧ (Tokens.mk "I7" "hv" "sv" "T7").team_id ≠ "" :=
  claim_C1 [("__Secure-C_SES", "sv"), ("__Host-C_OSES", "hv")]
    "https://business.gemini.google/cid/T7?csesidx=I7" ⟨"I7", "hv", "sv", "T7"⟩
    (by decide)

/-! ## Claim C4: refresh precondition check -/

/-- Claim C4, counterexample.  With a mismatched parent AND an empty children
list, the refresh fails with the no-children error of line 880 — not the
mismatch error the claim requires — because the children check precedes the
parent check; the driver is still never invoked. -/
theorem claim_C4_counterexample :
    autoRefreshGeminiTokens (some ⟨"parent@x"⟩) [] "other@x"
        (fun _ => .error "unused") "T"
      = ⟨.error noChildrenMsg, [], []⟩
    ∧ noChildrenMsg ≠ mismatchMsg := by decide

/-- Claim C4, amended.  Provided the configured children list is non-empty,
every refresh whose configured parent is absent or has an email different
from the supplied login email fails with the mismatch error, leaves the
children untouched, and never invokes the browser driver (the driver-call
trace is empty); with an empty children list the run fails even earlier with
the no-children error, likewise without invoking the driver. -/
theorem claim_C4 (parent : Option ParentAccount)
    (children : List GAccount) (loginEmail : String)
    (driver : Nat → Except String (Option Tokens)) (now : String)
    (hne : children ≠ [])
    (hmis : ∀ p, parent = some p → ¬ p.email = loginEmail) :
    autoRefreshGeminiTokens parent children loginEmail driver now
      = ⟨.error mismatchMsg, children, []⟩ := by
  unfold autoRefreshGeminiTokens
  rw [if_neg hne]
  cases parent with
  | none => rfl
  | some p => simp [hmis p rfl]

/-- Witness for claim C4's amended theorem at a concrete mismatched
configuration. -/
theorem claim_C4_witness :
    autoRefreshGeminiTokens (some ⟨"a@x"⟩)
        [⟨"c@x", none, none, none, none⟩] "b@x" (fun _ => .error "u") "T"
      = ⟨.error mismatchMsg, [⟨"c@x", none, none, none, none⟩], []⟩ :=
  claim_C4 (some ⟨"a@x"⟩) [⟨"c@x", none, none, none, none⟩] "b@x"
    (fun _ => .error "u") "T" (by decide)
    (by intro p hp; injection hp with h; rw [← h]; decide)

/-! ## Claim C5: token-set atomicity -/

lemma addLoop_addCalls (addOutcome : Nat → Bool) (now : String)
    (children : List GAccount) (i0 : Nat) :
    (addLoop addOutcome now children i0).addCalls
      = children.filterMap (fun c =>
          match c.tokens, c.skipReason with
          | some t, none => some (⟨t.team_id, t.secure_c_ses, t.host_c_oses,
              t.csesidx, userAgentString⟩ : AddData)
          | _, _ => none) := by
  induction children generalizing i0 with
  | nil => rfl
  | cons c rest ih =>
    cases ht : c.tokens with
    | some t =>
      cases hs : c.skipReason with
      | none => simp [addLoop, ht, hs, List.filterMap_cons, ih (i0 + 1)]
      | some v => simp [addLoop, ht, hs, List.filterMap_cons, ih (i0 + 1)]
    | none => simp [addLoop, ht, List.filterMap_cons, ih (i0 + 1)]

lemma addLoop_skipped (addOutcome : Nat → Bool) (now : String)
    (children : List GAccount) (i0 : Nat) :
    (addLoop addOutcome now children i0).skippedCount
      = (children.filter
          (fun c => c.tokens.isNone || c.skipReason.isSome)).length := by
  induction children generalizing i0 with
  | nil => rfl
  | cons c rest ih =>
    cases ht : c.tokens with
    | some t =>
      cases hs : c.skipReason with
      | none => simp [addLoop, ht, hs, List.filter_cons, ih (i0 + 1)]
      | some v => simp [addLoop, ht, hs, List.filter_cons, ih (i0 + 1)]
    | none => simp [addLoop, ht, List.filter_cons, ih (i0 + 1)]

lemma refreshLoop_forall2 (driver : Nat → Except String (Option Tokens))
    (now : String) (children : List GAccount) (i0 : Nat) :
    List.Forall₂
      (fun c c' => c'.tokens = c.tokens ∨
        ∃ i t, driver i = .ok (some t) ∧ c'.tokens = some (storeTokens t))
      children (refreshLoop driver now children i0).updated := by
  induction children generalizing i0 with
  | nil => exact List.Forall₂.nil
  | cons c rest ih =>
    cases hd : driver i0 with
    | error e =>
      simp only [refreshLoop, hd]
      exact List.Forall₂.cons (Or.inl rfl) (ih (i0 + 1))
    | ok o =>
      cases o with
      | none =>
        simp only [refreshLoop, hd]
        exact List.Forall₂.cons (Or.inl rfl) (ih (i0 + 1))
      | some t =>
        simp only [refreshLoop, hd]
        exact List.Forall₂.cons (Or.inr ⟨i0, t, hd, rfl⟩) (ih (i0 + 1))

/-- Claim C5, counterexample.  Field-level atomicity is not enforced: a child
whose stored tokens object has an empty `host_c_oses` is re-added to the pool
by the `addAllAccounts` loop (its skip check at line 1029 only tests the
presence of the tokens object), and a refresh whose driver returns a token
object with an empty `host_c_oses` (possible per claim C1) stores it
verbatim as a success. -/
theorem claim_C5_counterexample :
    (addLoop (fun _ => true) "T"
        [⟨"e@x", some ⟨"idxv", "", "sesv", "teamv"⟩, none, none, none⟩] 0).addCalls
      = [⟨"teamv", "sesv", "", "idxv", userAgentString⟩]
    ∧ (refreshLoop (fun _ => .ok (some ⟨"idxv", "", "sesv", "teamv"⟩)) "T"
        [⟨"e@x", none, none, none, none⟩] 0).updated
      = [⟨"e@x", some ⟨"idxv", "", "sesv", "teamv"⟩, none, none, some "T"⟩] := by
  decide

/-- Claim C5, amended.  The atomicity that actually holds is at the level of
the tokens OBJECT, not its fields: the pool synchronizer issues add calls for
exactly the children whose tokens object is present and that carry no skip
reason (counting the rest as skipped), and a refresh changes a child's tokens
only to a whole token object returned by a successful driver run; no
operation validates that the four fields of a present tokens object are
non-empty. -/
theorem claim_C5 :
    (∀ (addOutcome : Nat → Bool) (now : String) (children : List GAccount)
        (i0 : Nat),
      (addLoop addOutcome now children i0).addCalls
        = children.filterMap (fun c =>
            match c.tokens, c.skipReason with
            | some t, none => some (⟨t.team_id, t.secure_c_ses, t.host_c_oses,
                t.csesidx, userAgentString⟩ : AddData)
            | _, _ => none))
    ∧ (∀ (addOutcome : Nat → Bool) (now : String) (children : List GAccount)
        (i0 : Nat),
      (addLoop addOutcome now children i0).skippedCount
        = (children.filter
            (fun c => c.tokens.isNone || c.skipReason.isSome)).length)
    ∧ (∀ (driver : Nat → Except String (Option Tokens)) (now : String)
        (children : List GAccount) (i0 : Nat),
      List.Forall₂
        (fun c c' => c'.tokens = c.tokens ∨
          ∃ i t, driver i = .ok (some t) ∧ c'.tokens = some (storeTokens t))
        children (refreshLoop driver now children i0).updated) :=
  ⟨addLoop_addCalls, addLoop_skipped, refreshLoop_forall2⟩

/-! ## Claim C6: pool update -/

lemma deleteLoop_calls (delOutcome : Nat → Bool) (pool : List Nat) :
    (deleteLoop delOutcome pool).2 = pool := by
  induction pool with
  | nil => rfl
  | cons id rest ih => simp [deleteLoop, ih]

/-- Claim C6, counterexample.  A run with one fully-tokened child and two
pool entries (one of whose deletes fails, which is tolerated): the inner
`addAllAccounts` computes `{addedCount, skippedCount, totalCount}`, but
`updateGeminiPool` returns an object containing ONLY `totalCount`
(line 964) — the added/skipped counts of the claim are absent from the
result. -/
theorem claim_C6_counterexample :
    updateGeminiPool [⟨"e@x", some ⟨"i", "h", "s", "t"⟩, none, none, none⟩]
        (.ok "tok") [1, 2] (fun n => n = 1) (fun _ => true) [9] "T"
      = ⟨.ok (some [("totalCount", 1)]), [1, 2],
          [⟨"t", "s", "h", "i", userAgentString⟩]⟩
    ∧ List.lookup "addedCount" [("totalCount", (1 : Nat))] = none
    ∧ (addAllAccounts [⟨"e@x", some ⟨"i", "h", "s", "t"⟩, none, none, none⟩]
        (fun _ => true) [9] "T").2
      = [("addedCount", 1), ("skippedCount", 0), ("totalCount", 1)] := by
  decide

/-- Claim C6, amended.  For a non-empty children list and a successful pool
login, `updateGeminiPool` issues a delete call for every existing pool entry
(regardless of individual delete outcomes, which are tolerated), then issues
add calls for exactly the children with a present tokens object and no skip
reason, and returns an object carrying ONLY the total-remaining count: the
added and skipped counts are computed by the inner `addAllAccounts` step and
discarded. -/
theorem claim_C6 (children : List GAccount) (tok : String)
    (initialPool : List Nat) (delOutcome addOutcome : Nat → Bool)
    (finalPool : List Nat) (now : String) (hne : children ≠ []) :
    (updateGeminiPool children (.ok tok) initialPool delOutcome addOutcome
        finalPool now).result
      = .ok (some [("totalCount", finalPool.length)])
    ∧ (updateGeminiPool children (.ok tok) initialPool delOutcome addOutcome
        finalPool now).deleteCalls = initialPool
    ∧ (updateGeminiPool children (.ok tok) initialPool delOutcome addOutcome
        finalPool now).addCalls
      = children.filterMap (fun c =>
          match c.tokens, c.skipReason with
          | some t, none => some (⟨t.team_id, t.secure_c_ses, t.host_c_oses,
              t.csesidx, userAgentString⟩ : AddData)
          | _, _ => none)
    ∧ List.lookup "addedCount" [("totalCount", finalPool.length)] = none := by
  unfold updateGeminiPool
  rw [if_neg hne]
  exact ⟨rfl, deleteLoop_calls delOutcome initialPool,
    addLoop_addCalls addOutcome now children 0, by simp [List.lookup]⟩

/-- Witness for claim C6's amended theorem at a concrete configuration. -/
theorem claim_C6_witness :
    (updateGeminiPool [⟨"w@x", some ⟨"i", "h", "s", "t"⟩, none, none, none⟩]
        (.ok "tk") [4] (fun _ => false) (fun _ => true) [8, 9] "T").result
      = .ok (some [("totalCount", ([8, 9] : List Nat).length)])
    ∧ (updateGeminiPool [⟨"w@x", some ⟨"i", "h", "s", "t"⟩, none, none, none⟩]
        (.ok "tk") [4] (fun _ => false) (fun _ => true) [8, 9] "T").deleteCalls
      = [4]
    ∧ (updateGeminiPool [⟨"w@x", some ⟨"i", "h", "s", "t"⟩, none, none, none⟩]
        (.ok "tk") [4] (fun _ => false) (fun _ => true) [8, 9] "T").addCalls
      = ([⟨"w@x", some ⟨"i", "h", "s", "t"⟩, none, none, none⟩] :
            List GAccount).filterMap
          (fun c =>
            match c.tokens, c.skipReason with
            | some t, none => some (⟨t.team_id, t.secure_c_ses, t.host_c_oses,
                t.csesidx, userAgentString⟩ : AddData)
            | _, _ => none)
    ∧ List.lookup "addedCount" [("totalCount", ([8, 9] : List Nat).length)]
      = none :=
  claim_C6 [⟨"w@x", some ⟨"i", "h", "s", "t"⟩, none, none, none⟩]
    "tk" [4] (fun _ => false) (fun _ => true) [8, 9] "T" (by decide)

/-! ## Claim C7: invalid-account cleanup -/

lemma cleanLoop_spec (test del : Nat → Bool) (accounts : List Nat) :
    cleanLoop test del accounts
      = ((accounts.filter test).length,
         ((accounts.filter (fun id => !(test id))).filter del).length,
         accounts.filter (fun id => !(test id))) := by
  induction accounts with
  | nil => rfl
  | cons id rest ih =>
    by_cases htest : test id
    · simp [cleanLoop, htest, List.filter_cons, ih]
    · by_cases hdel : del id
      · simp [cleanLoop, htest, hdel, List.filter_cons, ih]
      · simp [cleanLoop, htest, hdel, List.filter_cons, ih]

/-- Claim C7, counterexample.  One pool account failing its health check
(N = 1, K = 1) whose delete call also fails: the claim requires
`invalidCount = K = 1`, but the code increments `invalidCount` only when the
delete succeeds (line 1124-1126), so the run returns
`{validCount: 0, invalidCount: 0}` — while still issuing the K = 1 delete
call. -/
theorem claim_C7_counterexample :
    cleanInvalidAccounts "p" (.ok "tok") [7] (fun _ => false) (fun _ => false)
      = ⟨.ok (0, 0), [7]⟩
    ∧ ([7].filter (fun id => !((fun _ => false) id))).length = 1 := by decide

/-- Claim C7, amended.  For a configured password and successful login,
a cleanup over N pool accounts of which K fail the health check yields
`validCount = N - K`, issues exactly the K delete calls (one per failing
account, none for passing ones) — but `invalidCount` counts only the failing
accounts whose delete call succeeded, so it equals K exactly when every such
delete succeeds. -/
theorem claim_C7 (password tok : String) (accounts : List Nat)
    (test del : Nat → Bool) (hp : ¬ password = "") :
    (cleanInvalidAccounts password (.ok tok) accounts test del).deleteCalls
      = accounts.filter (fun id => !(test id))
    ∧ (cleanInvalidAccounts password (.ok tok) accounts test del).result
      = .ok (accounts.length
            - (accounts.filter (fun id => !(test id))).length,
          ((accounts.filter (fun id => !(test id))).filter del).length)
    ∧ ((∀ id ∈ accounts.filter (fun id => !(test id)), del id = true) →
        ((accounts.filter (fun id => !(test id))).filter del).length
          = (accounts.filter (fun id => !(test id))).length) := by
  have hpart := @List.length_eq_length_filter_add Nat accounts test
  refine ⟨?_, ?_, fun hall => by rw [List.filter_eq_self.mpr hall]⟩
  · by_cases hacc : accounts = []
    · subst hacc; simp [cleanInvalidAccounts, hp]
    · simp [cleanInvalidAccounts, hp, hacc, cleanLoop_spec]
  · by_cases hacc : accounts = []
    · subst hacc; simp [cleanInvalidAccounts, hp]
    · simp [cleanInvalidAccounts, hp, hacc, cleanLoop_spec]
      omega

/-- Witness for claim C7's amended theorem: two accounts, one failing the
health check, its delete succeeding. -/
theorem claim_C7_witness :
    (cleanInvalidAccounts "p" (.ok "t") [1, 2] (fun id => id == 1)
        (fun _ => true)).deleteCalls
      = [1, 2].filter (fun id => !((fun id => id == 1) id))
    ∧ (cleanInvalidAccounts "p" (.ok "t") [1, 2] (fun id => id == 1)
        (fun _ => true)).result
      = .ok (([1, 2] : List Nat).length
            - ([1, 2].filter (fun id => !((fun id => id == 1) id))).length,
          (([1, 2].filter (fun id => !((fun id => id == 1) id))).filter
            (fun _ => true)).length)
    ∧ ((∀ id ∈ [1, 2].filter (fun id => !((fun id => id == 1) id)),
          (fun _ => true) id = true) →
        (([1, 2].filter (fun id => !((fun id => id == 1) id))).filter
            (fun _ => true)).length
          = ([1, 2].filter (fun id => !((fun id => id == 1) id))).length) :=
  claim_C7 "p" "t" [1, 2] (fun id => id == 1) (fun _ => true)
    (by decide)

/-! ## Claim C8: account partitioning -/

lemma length_filter_partition (p : MailAccount → Bool) (l : List MailAccount) :
    (l.filter p).length + (l.filter (fun a => !(p a))).length = l.length := by
  induction l with
  | nil => rfl
  | cons x xs ih =>
    by_cases hx : p x
    · simp [List.filter_cons, hx]
      omega
    · simp [List.filter_cons, hx]
      omega

lemma splitGo_some (e : String) (l : List MailAccount) (p : MailAccount) :
    splitGo e l (some p) = (some p, l) := by
  induction l with
  | nil => rfl
  | cons x xs ih => simp [splitGo, ih]

lemma splitGo_nomatch (e : String) (l : List MailAccount)
    (h : ∀ a ∈ l, ¬ a.email = e) : splitGo e l none = (none, l) := by
  induction l with
  | nil => rfl
  | cons x xs ih =>
    have hx : ¬ x.email = e := h x (List.mem_cons_self x xs)
    simp [splitGo, hx, ih (fun a ha => h a (List.mem_cons_of_mem x ha))]

lemma splitGo_unique (e : String) (l : List MailAccount)
    (h : (l.filter (fun a => a.email == e)).length = 1) :
    ∃ p, splitGo e l none = (some p, l.filter (fun a => !(a.email == e)))
      ∧ p ∈ l ∧ p.email = e := by
  induction l with
  | nil => simp at h
  | cons x xs ih =>
    by_cases hx : x.email = e
    · have hxs : ∀ a ∈ xs, ¬ a.email = e := by
        simp [List.filter_cons, hx] at h
        exact h
      refine ⟨x, ?_, List.mem_cons_self x xs, hx⟩
      have hstep : splitGo e (x :: xs) none = splitGo e xs (some x) := by
        simp [splitGo, hx]
      rw [hstep, splitGo_some]
      have hfx : (x :: xs).filter (fun a => !(a.email == e)) = xs := by
        rw [List.filter_cons]
        simp only [hx]
        simp only [beq_self_eq_true, Bool.not_true, if_false]
        exact List.filter_eq_self.mpr (fun a ha => by simp [hxs a ha])
      rw [hfx]
    · have h' : (xs.filter (fun a => a.email == e)).length = 1 := by
        simp [List.filter_cons, hx] at h
        exact h
      obtain ⟨p, hsplit, hmem, hpe⟩ := ih h'
      refine ⟨p, ?_, List.mem_cons_of_mem x hmem, hpe⟩
      simp [splitGo, hx, hsplit, List.filter_cons]

/-- Claim C8, confirmed.  When exactly one provider entry's email equals the
configured login email, `splitAccounts` returns that entry as parent and all
other entries (in order) as children, with `children.length + 1` equal to the
total; and when no entry matches, it returns the synthesized parent — null
accountId, empty name/status/latestEmailTime, current timestamp — with the
children equal to the full input list. -/
theorem claim_C8 (list : List MailAccount) (loginEmail now : String) :
    ((list.filter (fun a => a.email == loginEmail)).length = 1 →
      (splitAccounts list loginEmail now).1 ∈ list
      ∧ (splitAccounts list loginEmail now).1.email = loginEmail
      ∧ (splitAccounts list loginEmail now).2
          = list.filter (fun a => !(a.email == loginEmail))
      ∧ (splitAccounts list loginEmail now).2.length + 1 = list.length)
    ∧ ((∀ a ∈ list, ¬ a.email = loginEmail) →
      (splitAccounts list loginEmail now).1
          = ⟨loginEmail, none, "", none, "", now⟩
      ∧ (splitAccounts list loginEmail now).2 = list) := by
  constructor
  · intro h1
    obtain ⟨p, hsplit, hmem, hpe⟩ := splitGo_unique loginEmail list h1
    have heq : splitAccounts list loginEmail now
        = (p, list.filter (fun a => !(a.email == loginEmail))) := by
      simp [splitAccounts, hsplit]
    have hpart := length_filter_partition (fun a => a.email == loginEmail) list
    rw [heq]
    refine ⟨hmem, hpe, rfl, ?_⟩
    show (list.filter (fun a => !(a.email == loginEmail))).length + 1
      = list.length
    omega
  · intro h2
    have heq2 := splitGo_nomatch loginEmail list h2
    constructor
    · simp [splitAccounts, heq2]
    · simp [splitAccounts, heq2]

/-- Witness for claim C8's theorem at two concrete provider lists: one with
exactly one matching entry, one with none. -/
theorem claim_C8_witness :
    ((splitAccounts
        [⟨"a@x", some 1, "", none, "", ""⟩, ⟨"p@x", some 2, "", none, "", ""⟩,
          ⟨"b@x", some 3, "", none, "", ""⟩] "p@x" "NOW").1
      ∈ ([⟨"a@x", some 1, "", none, "", ""⟩, ⟨"p@x", some 2, "", none, "", ""⟩,
          ⟨"b@x", some 3, "", none, "", ""⟩] : List MailAccount)
      ∧ (splitAccounts
          [⟨"a@x", some 1, "", none, "", ""⟩, ⟨"p@x", some 2, "", none, "", ""⟩,
            ⟨"b@x", some 3, "", none, "", ""⟩] "p@x" "NOW").1.email = "p@x"
      ∧ (splitAccounts
          [⟨"a@x", some 1, "", none, "", ""⟩, ⟨"p@x", some 2, "", none, "", ""⟩,
            ⟨"b@x", some 3, "", none, "", ""⟩] "p@x" "NOW").2
        = ([⟨"a@x", some 1, "", none, "", ""⟩, ⟨"p@x", some 2, "", none, "", ""⟩,
            ⟨"b@x", some 3, "", none, "", ""⟩] : List MailAccount).filter
            (fun a => !(a.email == "p@x"))
      ∧ (splitAccounts
          [⟨"a@x", some 1, "", none, "", ""⟩, ⟨"p@x", some 2, "", none, "", ""⟩,
            ⟨"b@x", some 3, "", none, "", ""⟩] "p@x" "NOW").2.length + 1
        = ([⟨"a@x", some 1, "", none, "", ""⟩, ⟨"p@x", some 2, "", none, "", ""⟩,
            ⟨"b@x", some 3, "", none, "", ""⟩] : List MailAccount).length)
    ∧ ((splitAccounts [⟨"a@x", some 1, "", none, "", ""⟩] "p@x" "NOW").1
        = ⟨"p@x", none, "", none, "", "NOW"⟩
      ∧ (splitAccounts [⟨"a@x", some 1, "", none, "", ""⟩] "p@x" "NOW").2
        = [⟨"a@x", some 1, "", none, "", ""⟩]) :=
  ⟨(claim_C8
      [⟨"a@x", some 1, "", none, "", ""⟩, ⟨"p@x", some 2, "", none, "", ""⟩,
        ⟨"b@x", some 3, "", none, "", ""⟩] "p@x" "NOW").1 (by decide),
    (claim_C8 [⟨"a@x", some 1, "", none, "", ""⟩] "p@x" "NOW").2
      (by decide)⟩

/-! ## Claim C9: positional account selection -/

/-- Claim C9, confirmed.  The selection loop interprets each incoming id as a
1-based POSITION into the children array (`index = parseInt(id) - 1`, kept
when in bounds), not as a match on the accountId field: in general the
selected list is the in-order lookup of positions `id - 1`, and on the
literal fixture — children with accountIds 1, 3, 5 and ids [1, 3, 5] — the
entries selected are positions 1 and 3 of the array (accountIds 1 and 5;
position 5 is out of bounds), not the accounts whose accountId fields are
1, 3, 5. -/
theorem claim_C9 :
    (∀ (children : List MailAccount) (ids : List Int),
      selectLoop children ids
        = ids.filterMap (fun id =>
            if 1 ≤ id then children.get? (id - 1).toNat else none))
    ∧ selectBusinessAccounts
        [⟨"a1@x", some 1, "", none, "", ""⟩, ⟨"a3@x", some 3, "", none, "", ""⟩,
          ⟨"a5@x", some 5, "", none, "", ""⟩] [1, 3, 5]
      = .ok [⟨"a1@x", some 1, "", none, "", ""⟩,
          ⟨"a5@x", some 5, "", none, "", ""⟩] := by
  constructor
  · intro children ids
    induction ids with
    | nil => rfl
    | cons id rest ih =>
      by_cases hid : 1 ≤ id
      · have hneg : ¬ (id - 1 < 0) := by omega
        rw [List.filterMap_cons]
        conv_lhs => unfold selectLoop
        rw [if_neg hneg, if_pos hid, ih]
        cases children.get? (id - 1).toNat <;> rfl
      · have hpos : id - 1 < 0 := by omega
        rw [List.filterMap_cons]
        conv_lhs => unfold selectLoop
        rw [if_pos hpos, if_neg hid, ih]
  · decide

/-! ## Claim C10: proxy probe outcome is ignored -/

/-- Claim C10, confirmed.  In the browser-launch setup the `proxyValid` flag
is initialized `true` and never reassigned, and the probe's result is
discarded, so for every enabled proxy configuration the launch arguments are
identical across all probe outcomes and always contain the `--proxy-server`
flag (and the HTTP proxy-credential hook fires independently of the probe);
in particular a failing probe never causes a proxy-less launch. -/
theorem claim_C10 (cfg : ProxyConfig) (net net' : NetOutcome)
    (userDataDir : String) (debugPort : Nat) (hen : cfg.enabled = true) :
    loginGeminiChildLaunchArgs cfg net userDataDir debugPort
      = loginGeminiChildLaunchArgs cfg net' userDataDir debugPort
    ∧ ("--proxy-server=" ++ proxyServerArg cfg)
        ∈ loginGeminiChildLaunchArgs cfg net userDataDir debugPort
    ∧ loginGeminiChildProxyAuthApplied cfg net
        = loginGeminiChildProxyAuthApplied cfg net'
    ∧ (testProxyConnection cfg net = false →
        ("--proxy-server=" ++ proxyServerArg cfg)
          ∈ loginGeminiChildLaunchArgs cfg net userDataDir debugPort) := by
  have hmem : ("--proxy-server=" ++ proxyServerArg cfg)
      ∈ loginGeminiChildLaunchArgs cfg net userDataDir debugPort := by
    simp [loginGeminiChildLaunchArgs, hen]
  exact ⟨rfl, hmem, rfl, fun _ => hmem⟩

/-- Witness for claim C10's theorem: an enabled HTTP proxy whose probe throws
a network error. -/
theorem claim_C10_witness :
    loginGeminiChildLaunchArgs ⟨true, "http", "1.2.3.4", 88, "u", "pw"⟩
        (.netError "boom") "/tmp/u" 9001
      = loginGeminiChildLaunchArgs ⟨true, "http", "1.2.3.4", 88, "u", "pw"⟩
        (.status 200) "/tmp/u" 9001
    ∧ ("--proxy-server="
        ++ proxyServerArg ⟨true, "http", "1.2.3.4", 88, "u", "pw"⟩)
        ∈ loginGeminiChildLaunchArgs ⟨true, "http", "1.2.3.4", 88, "u", "pw"⟩
          (.netError "boom") "/tmp/u" 9001
    ∧ loginGeminiChildProxyAuthApplied ⟨true, "http", "1.2.3.4", 88, "u", "pw"⟩
        (.netError "boom")
      = loginGeminiChildProxyAuthApplied ⟨true, "http", "1.2.3.4", 88, "u", "pw"⟩
        (.status 200)
    ∧ (testProxyConnection ⟨true, "http", "1.2.3.4", 88, "u", "pw"⟩
          (.netError "boom") = false →
        ("--proxy-server="
          ++ proxyServerArg ⟨true, "http", "1.2.3.4", 88, "u", "pw"⟩)
          ∈ loginGeminiChildLaunchArgs ⟨true, "http", "1.2.3.4", 88, "u", "pw"⟩
            (.netError "boom") "/tmp/u" 9001) :=
  claim_C10 ⟨true, "http", "1.2.3.4", 88, "u", "pw"⟩
    (.netError "boom") (.status 200) "/tmp/u" 9001 rfl

end GeminiApiService
